import Mathlib

/-!
Shallow embedding of the Codex OpenAI proxy adapter
(`codex-rs/openai-proxy/src/main.rs`): request normalization, the turn-driver
event loops (aggregate and streaming, chat-completions and responses dialects),
response assembly, and the item/error mappers, together with theorems about
the adapter's behavioral properties.

Conventions of the embedding:
- `serde_json::Value` is modelled by `JsonValue` restricted to the shapes the
  adapter inspects (strings, arrays, objects, null; anything else collapses to
  `otherJson`); object field lookup is first-match association-list lookup.
- Machine strings are Lean `String`; Rust `str::trim`, `str::to_lowercase` and
  `str::starts_with` are modelled by the kernel-reducible `rustTrim`,
  `rustToLower` and `rustStartsWith` below (the adapter only compares ASCII
  model names and ASCII whitespace, where these agree with Rust's Unicode
  versions).
- The asynchronous event loops are modelled as structural recursion over the
  finite list of events the session delivers; a loop that never reaches a
  terminal event yields `none`, mirroring a turn that never finishes.
- Session resolution (`get_or_create_thread`) is an external collaborator and
  is elided; the conversation id it returns is a parameter.
- Nondeterministic response fields (generated uuids, wall-clock timestamps,
  zero token usage) are elided from the assembled response cores; all fields
  the claims speak about (model, content, tool calls, finish reason, output
  items, status, conversation id) are kept.
-/

namespace CodexProxy

/-- `str::trim`: drop leading and trailing whitespace characters. -/
def rustTrim (s : String) : String :=
  String.mk (((s.data.dropWhile Char.isWhitespace).reverse.dropWhile Char.isWhitespace).reverse)

/-- `str::to_lowercase` (ASCII-adequate). -/
def rustToLower (s : String) : String :=
  String.mk (s.data.map Char.toLower)

/-- `str::starts_with` on string patterns. -/
def rustStartsWith (s p : String) : Bool :=
  p.data.isPrefixOf s.data

/-- Model of `serde_json::Value` restricted to the shapes inspected by the
adapter. `otherJson` stands for numbers, booleans and anything else the
adapter treats as "not a string / array / object". -/
inductive JsonValue where
  | str (s : String)
  | arr (items : List JsonValue)
  | obj (fields : List (String × JsonValue))
  | nullV
  | otherJson

/-- Object field lookup (`serde_json::Map::get`): first binding wins. -/
def lookupField : List (String × JsonValue) → String → Option JsonValue
  | [], _ => none
  | (k, v) :: rest, key => if k = key then some v else lookupField rest key

/-- `Value::get`: only objects have fields. -/
def jget (v : JsonValue) (key : String) : Option JsonValue :=
  match v with
  | .obj fields => lookupField fields key
  | _ => none

/-- `Value::as_str`. -/
def asStr : JsonValue → Option String
  | .str s => some s
  | _ => none

/-- `Vec::join("\n")` over string parts. -/
def joinParts : List String → String
  | [] => ""
  | [p] => p
  | p :: rest => p ++ "\n" ++ joinParts rest

/-- The content-extraction step shared by `merge_messages` and
`merge_responses_input_values`: a plain string is taken verbatim; for an array,
each block contributes `block.get("text").or(block.get("content"))` when that
is a string, joined with newlines; anything else contributes the empty
string. -/
def contentToText : JsonValue → String
  | .str s => s
  | .arr items =>
      joinParts (items.filterMap fun v => ((jget v "text").orElse fun _ => jget v "content").bind asStr)
  | _ => ""

/-- `ChatMessage { role, content }` of the chat-completions request shape. -/
structure ChatMessage where
  role : String
  content : JsonValue

/-- `ChatCompletionRequest` (the fields the normalizer and handlers read). -/
structure ChatCompletionRequest where
  model : String
  messages : Option (List ChatMessage)
  input : Option (List JsonValue)
  instructions : Option String
  stream : Bool
  conversation_id : Option String

/-- `codex_protocol::models::ContentItem`, restricted to the constructors the
adapter matches on. -/
inductive ContentItem where
  | inputText (text : String)
  | outputText (text : String)
  | otherContent
deriving DecidableEq

/-- `codex_protocol::models::ResponseItem`, restricted to the constructors the
adapter matches on (optional ids that the adapter ignores via `..` are
dropped). -/
inductive ResponseItem where
  | message (role : String) (content : List ContentItem)
  | functionCall (call_id : String) (name : String) (arguments : String)
  | customToolCall (call_id : String) (name : String) (input : String)
  | otherItem

/-- `ResponsesRequest` (the fields the normalizer and handlers read). -/
structure ResponsesRequest where
  model : String
  input : List ResponseItem
  instructions : Option String
  stream : Bool
  conversation_id : Option String

/-- External tool-call shape: `ToolFunction { name, arguments }`. -/
structure ToolFunction where
  name : String
  arguments : String
deriving DecidableEq

/-- External tool-call shape: `ToolCall { id, type: "function", function }`. -/
structure ToolCall where
  id : String
  kind : String
  function : ToolFunction
deriving DecidableEq

/-- `map_tool_call`: only `FunctionCall` and `CustomToolCall` map to an
external tool call, both with kind fixed to `"function"`; the custom call's
`input` becomes the arguments string. -/
def map_tool_call : ResponseItem → Option ToolCall
  | .functionCall call_id name arguments =>
      some { id := call_id, kind := "function", function := { name := name, arguments := arguments } }
  | .customToolCall call_id name input =>
      some { id := call_id, kind := "function", function := { name := name, arguments := input } }
  | _ => none

/-- The static alias table of `map_model`. -/
def model_aliases : List (String × String) :=
  [("gpt-4.1", "gpt-4.1"), ("gpt-4.1-mini", "gpt-4.1-mini"), ("gpt-4o", "gpt-4o"),
   ("gpt-4o-mini", "gpt-4o-mini"), ("o3-mini", "o3-mini"), ("o1-mini", "o1-mini"),
   ("o1-preview", "o1-preview")]

/-- `map_model`: case-insensitive exact match against the alias table, identity
otherwise. -/
def map_model (model : String) : String :=
  let normalized := rustToLower model
  match model_aliases.find? fun kv => normalized = kv.1 with
  | some kv => kv.2
  | none => model

/-- One iteration of the `merge_messages` loop: a message whose extracted
content trims to empty is skipped, otherwise it contributes
`"<role>: <content>"` (content not trimmed). -/
def msgPart (m : ChatMessage) : Option String :=
  let content := contentToText m.content
  if rustTrim content = "" then none else some (m.role ++ ": " ++ content)

/-- `merge_messages`. -/
def merge_messages (msgs : List ChatMessage) : Option String :=
  let parts := msgs.filterMap msgPart
  if parts.isEmpty then none else some (joinParts parts)

/-- The `instructions` handling shared by `merge_responses_input_values` and
`merge_responses_input`: a present, non-blank instruction contributes one
leading `"system: <trimmed>"` part. -/
def instructionPart : Option String → List String
  | some instr => if rustTrim instr = "" then [] else ["system: " ++ rustTrim instr]
  | none => []

/-- Role of a free-form input item: `obj.get("role").and_then(as_str)`,
defaulting to `"user"`. -/
def valueRole (fields : List (String × JsonValue)) : String :=
  ((lookupField fields "role").bind asStr).getD "user"

/-- Content of a free-form input item:
`obj.get("content").or(obj.get("text"))`, defaulting to null, then the shared
content-extraction step. -/
def valueContentText (fields : List (String × JsonValue)) : String :=
  contentToText (((lookupField fields "content").orElse fun _ => lookupField fields "text").getD .nullV)

/-- One iteration of the `merge_responses_input_values` loop: non-objects are
skipped; an object whose content trims to empty is skipped, otherwise it
contributes `"<role>: <trimmed content>"`. -/
def valuePart : JsonValue → Option String
  | .obj fields =>
      let ct := valueContentText fields
      if rustTrim ct = "" then none else some (valueRole fields ++ ": " ++ rustTrim ct)
  | _ => none

/-- `merge_responses_input_values`. -/
def merge_responses_input_values (input : List JsonValue) (instructions : Option String) :
    Option String :=
  let parts := instructionPart instructions ++ input.filterMap valuePart
  if parts.isEmpty then none else some (joinParts parts)

/-- Text of a typed response item: for a `Message`, the newline-join of its
`InputText`/`OutputText` content; anything else yields the empty string. -/
def respItemText : ResponseItem → String
  | .message _ content =>
      joinParts (content.filterMap fun c =>
        match c with
        | .inputText t => some t
        | .outputText t => some t
        | _ => none)
  | _ => ""

/-- One iteration of the `merge_responses_input` loop. -/
def respItemPart (item : ResponseItem) : Option String :=
  match item with
  | .message role _ =>
      let text := respItemText item
      if rustTrim text = "" then none else some (role ++ ": " ++ rustTrim text)
  | _ => none

/-- `merge_responses_input`. -/
def merge_responses_input (input : List ResponseItem) (instructions : Option String) :
    Option String :=
  let parts := instructionPart instructions ++ input.filterMap respItemPart
  if parts.isEmpty then none else some (joinParts parts)

/-- `merged_text_from_request`: try `messages` first; fall back to the
free-form `input` list (with `instructions`) only when `messages` is absent or
merged to nothing; `None` when neither shape yields text. -/
def merged_text_from_request (body : ChatCompletionRequest) : Option String :=
  match body.messages with
  | some msgs =>
      match merge_messages msgs with
      | some text => some text
      | none =>
          match body.input with
          | some items => merge_responses_input_values items body.instructions
          | none => none
  | none =>
      match body.input with
      | some items => merge_responses_input_values items body.instructions
      | none => none

/-! ## Events and the turn-driver loops -/

/-- `codex_protocol::protocol::EventMsg`, restricted to the variants the
adapter dispatches on; `other` stands for every variant covered by the
catch-all `_ => {}` arm. The abort reason's `Debug` rendering is modelled as a
plain string. -/
inductive EventMsg where
  | agentMessage (message : String)
  | agentMessageDelta (delta : String)
  | rawResponseItem (item : ResponseItem)
  | turnComplete (last_agent_message : Option String)
  | error (message : String)
  | warning (message : String)
  | turnAborted (reason : String)
  | other

/-- One id-tagged event pulled from the session's event stream. -/
structure Event where
  id : String
  msg : EventMsg

/-- The event loop of `handle_once`'s spawned task: skip foreign ids, append
message (`+ newline`) and delta text, collect mapped tool calls, terminate on
`TurnComplete` (an attached final message overwrites the buffer), fail on
`Error` / `TurnAborted`. `none` means the event list ran out before a terminal
event (a turn that never finishes). -/
def runOnceLoop (sub_id : String) (final_text : String) (tool_calls : List ToolCall) :
    List Event → Option (Except String (String × List ToolCall))
  | [] => none
  | ev :: rest =>
    if ev.id ≠ sub_id then runOnceLoop sub_id final_text tool_calls rest
    else
      match ev.msg with
      | .agentMessage m => runOnceLoop sub_id (final_text ++ m ++ "\n") tool_calls rest
      | .agentMessageDelta d => runOnceLoop sub_id (final_text ++ d) tool_calls rest
      | .rawResponseItem item =>
          match map_tool_call item with
          | some tc => runOnceLoop sub_id final_text (tool_calls ++ [tc]) rest
          | none => runOnceLoop sub_id final_text tool_calls rest
      | .turnComplete last =>
          some (.ok ((match last with | some msg => msg | none => final_text), tool_calls))
      | .error m => some (.error ("Codex error: " ++ m))
      | .warning _ => runOnceLoop sub_id final_text tool_calls rest
      | .turnAborted r => some (.error ("Turn aborted: " ++ r))
      | .other => runOnceLoop sub_id final_text tool_calls rest

/-- Outcome of a request handler: a 400 error envelope, a 500 error envelope,
a successful response body, or `pending` when the turn never reached a
terminal event. -/
inductive HandlerOutcome (α : Type) where
  | badRequest (message : String) (errType : String)
  | internalError (message : String)
  | ok (resp : α)
  | pending

/-- The deterministic core of a `ChatCompletionResponse` (generated id,
timestamp and zero usage elided): model echoes the caller's original model
name, one assistant choice with trimmed text, optional tool calls, finish
reason. -/
structure ChatCompletionResponseCore where
  model : String
  content : String
  tool_calls : Option (List ToolCall)
  finish_reason : String
deriving DecidableEq

/-- `handle_once`: normalize (400 on no content, before any turn is
submitted), run the aggregate event loop, then assemble the response: trimmed
text, tool-call list only if non-empty, finish reason `"tool_calls"` iff the
tool-call list is non-empty, and the caller's original model name. -/
def handle_once (body : ChatCompletionRequest) (sub_id : String) (events : List Event) :
    HandlerOutcome ChatCompletionResponseCore :=
  match merged_text_from_request body with
  | none => .badRequest "no user content found" "invalid_request_error"
  | some _ =>
      match runOnceLoop sub_id "" [] events with
      | none => .pending
      | some (.error e) => .internalError e
      | some (.ok (text, tcs)) =>
          .ok { model := body.model
              , content := rustTrim text
              , tool_calls := if tcs.isEmpty then none else some tcs
              , finish_reason := if tcs.isEmpty then "stop" else "tool_calls" }

/-- One element pushed onto the chat-completions streaming channel: a chunk
(with optional `content`, optional singleton `tool_calls`, and the
`finish_reason` field, `none` until the terminal chunk), the literal `[DONE]`
marker, or an error-shaped element. The constant per-chunk fields (generated
id, timestamp, conversation id) are elided. -/
inductive ChatChanItem where
  | chunk (content : Option String) (tool_call : Option ToolCall) (finish : Option String)
  | doneMarker
  | errItem (message : String)
deriving DecidableEq

/-- The event loop of `handle_stream`'s spawned task: skip foreign ids,
forward message/delta text as content chunks, forward mapped tool calls as
tool-call chunks (setting the `tool_seen` flag), and on `TurnComplete` forward
an attached final message as one more content chunk, then the finish chunk
(reason from `tool_seen`), then `[DONE]`; on `Error` / `TurnAborted` push a
single error element and stop. -/
def runStreamLoop (sub_id : String) (tool_seen : Bool) : List Event → List ChatChanItem
  | [] => []
  | ev :: rest =>
    if ev.id ≠ sub_id then runStreamLoop sub_id tool_seen rest
    else
      match ev.msg with
      | .agentMessage m => .chunk (some m) none none :: runStreamLoop sub_id tool_seen rest
      | .agentMessageDelta d => .chunk (some d) none none :: runStreamLoop sub_id tool_seen rest
      | .rawResponseItem item =>
          match map_tool_call item with
          | some tc => .chunk none (some tc) none :: runStreamLoop sub_id true rest
          | none => runStreamLoop sub_id tool_seen rest
      | .turnComplete last =>
          (match last with
           | some msg => [ChatChanItem.chunk (some msg) none none]
           | none => [])
          ++ [.chunk none none (some (if tool_seen then "tool_calls" else "stop")), .doneMarker]
      | .error m => [.errItem ("Codex error: " ++ m)]
      | .warning _ => runStreamLoop sub_id tool_seen rest
      | .turnAborted r => [.errItem ("Turn aborted: " ++ r)]
      | .other => runStreamLoop sub_id tool_seen rest

/-- `handle_stream`: normalize (400 on no content, before any turn is
submitted), otherwise the channel carries exactly the loop's output. -/
def handle_stream (body : ChatCompletionRequest) (sub_id : String) (events : List Event) :
    HandlerOutcome (List ChatChanItem) :=
  match merged_text_from_request body with
  | none => .badRequest "no user content found" "invalid_request_error"
  | some _ => .ok (runStreamLoop sub_id false events)

/-- The event loop of `handle_responses_once`'s spawned task: like the chat
aggregate loop but it additionally tracks a `text_seen` flag, collects every
raw structured item verbatim, and a final message on `TurnComplete` both
overwrites the buffer and sets the flag. Returns
`(final_text, text_seen, items)`. -/
def runResponsesOnceLoop (sub_id : String) (final_text : String) (text_seen : Bool)
    (items : List ResponseItem) :
    List Event → Option (Except String (String × Bool × List ResponseItem))
  | [] => none
  | ev :: rest =>
    if ev.id ≠ sub_id then runResponsesOnceLoop sub_id final_text text_seen items rest
    else
      match ev.msg with
      | .agentMessage m => runResponsesOnceLoop sub_id (final_text ++ m ++ "\n") true items rest
      | .agentMessageDelta d => runResponsesOnceLoop sub_id (final_text ++ d) true items rest
      | .rawResponseItem item => runResponsesOnceLoop sub_id final_text text_seen (items ++ [item]) rest
      | .turnComplete last =>
          match last with
          | some msg => some (.ok (msg, true, items))
          | none => some (.ok (final_text, text_seen, items))
      | .error m => some (.error ("Codex error: " ++ m))
      | .warning _ => runResponsesOnceLoop sub_id final_text text_seen items rest
      | .turnAborted r => some (.error ("Turn aborted: " ++ r))
      | .other => runResponsesOnceLoop sub_id final_text text_seen items rest

/-- The deterministic core of a `ResponsesResponse` (generated id and
timestamp elided): note the model field carries the **normalized**
(`map_model`) name. -/
structure ResponsesResponseCore where
  model : String
  status : String
  output : List ResponseItem
  conversation_id : Option String

/-- `handle_responses_once`: normalize (400 on no content), run the responses
aggregate loop, then append one assistant message item carrying the trimmed
final text when text was seen and trims non-empty, and assemble the response
with the normalized model name. -/
def handle_responses_once (body : ResponsesRequest) (sub_id conv_id : String)
    (events : List Event) : HandlerOutcome ResponsesResponseCore :=
  match merge_responses_input body.input body.instructions with
  | none => .badRequest "no user content found" "invalid_request_error"
  | some _ =>
      match runResponsesOnceLoop sub_id "" false [] events with
      | none => .pending
      | some (.error e) => .internalError e
      | some (.ok (text, seen, items)) =>
          let output :=
            if seen && !(rustTrim text = "") then
              items ++ [.message "assistant" [.outputText (rustTrim text)]]
            else items
          .ok { model := map_model body.model
              , status := "completed"
              , output := output
              , conversation_id := some conv_id }

/-- One element pushed onto the responses-dialect streaming channel. -/
inductive RespChanItem where
  | createdEvent (response_id : String) (conversation_id : Option String)
  | textDelta (delta : String)
  | itemDone (item : ResponseItem)
  | completedEvent (response_id : String) (conversation_id : Option String)
  | doneMarker
  | errItem (message : String)

/-- The event loop of `handle_responses_stream`'s spawned task: skip foreign
ids, forward message/delta text as `response.output_text.delta` events
(setting `text_seen`), forward every raw structured item as a
`response.output_item.done` event, and on `TurnComplete` synthesize one text
delta from an attached final message only when no text was ever seen, then
`response.completed` and `[DONE]`; on `Error` / `TurnAborted` push a single
error element and stop. -/
def runResponsesStreamLoop (sub_id response_id : String) (conv : Option String)
    (text_seen : Bool) : List Event → List RespChanItem
  | [] => []
  | ev :: rest =>
    if ev.id ≠ sub_id then runResponsesStreamLoop sub_id response_id conv text_seen rest
    else
      match ev.msg with
      | .agentMessage m => .textDelta m :: runResponsesStreamLoop sub_id response_id conv true rest
      | .agentMessageDelta d => .textDelta d :: runResponsesStreamLoop sub_id response_id conv true rest
      | .rawResponseItem item =>
          .itemDone item :: runResponsesStreamLoop sub_id response_id conv text_seen rest
      | .turnComplete last =>
          (match last with
           | some msg => if text_seen then [] else [RespChanItem.textDelta msg]
           | none => [])
          ++ [.completedEvent response_id conv, .doneMarker]
      | .error m => [.errItem ("Codex error: " ++ m)]
      | .warning _ => runResponsesStreamLoop sub_id response_id conv text_seen rest
      | .turnAborted r => [.errItem ("Turn aborted: " ++ r)]
      | .other => runResponsesStreamLoop sub_id response_id conv text_seen rest

/-- `handle_responses_stream`: normalize (400 on no content), otherwise the
channel carries a `response.created` event (sent before the task starts)
followed by the loop's output. -/
def handle_responses_stream (body : ResponsesRequest) (sub_id response_id conv_id : String)
    (events : List Event) : HandlerOutcome (List RespChanItem) :=
  match merge_responses_input body.input body.instructions with
  | none => .badRequest "no user content found" "invalid_request_error"
  | some _ =>
      .ok (.createdEvent response_id (some conv_id)
            :: runResponsesStreamLoop sub_id response_id (some conv_id) false events)

/-! ## Observers over event sequences and channel output

These functions express, as executable scans, the quantities the spec talks
about: whether a tool item / text was observed during a turn, the kind of the
terminal event, and aggregations of the streamed channel output. -/

/-- Whether a matching raw structured item that maps to a tool call occurs
strictly before the turn's terminal event. -/
def tool_item_seen (sub_id : String) : List Event → Bool
  | [] => false
  | ev :: rest =>
    if ev.id ≠ sub_id then tool_item_seen sub_id rest
    else
      match ev.msg with
      | .rawResponseItem item => (map_tool_call item).isSome || tool_item_seen sub_id rest
      | .turnComplete _ => false
      | .error _ => false
      | .turnAborted _ => false
      | _ => tool_item_seen sub_id rest

/-- Kind of the first terminal event bearing the turn's id, if any. -/
inductive TerminalKind where
  | complete
  | failed
deriving DecidableEq

/-- Scan for the turn's terminal event: `TurnComplete` is a successful
terminal, `Error` / `TurnAborted` are failing terminals. -/
def terminal_kind (sub_id : String) : List Event → Option TerminalKind
  | [] => none
  | ev :: rest =>
    if ev.id ≠ sub_id then terminal_kind sub_id rest
    else
      match ev.msg with
      | .turnComplete _ => some .complete
      | .error _ => some .failed
      | .turnAborted _ => some .failed
      | _ => terminal_kind sub_id rest

/-- `true` when no terminal event bearing the turn's id occurs in the list. -/
def no_terminal (sub_id : String) (events : List Event) : Bool :=
  (terminal_kind sub_id events).isNone

/-- `true` when, up to the turn's terminal event, no matching text-message
event occurs and the terminal `TurnComplete` (if reached) carries no final
message. Under this condition the aggregate buffer is exactly the
concatenation of the matching deltas. -/
def no_message_no_final (sub_id : String) : List Event → Bool
  | [] => true
  | ev :: rest =>
    if ev.id ≠ sub_id then no_message_no_final sub_id rest
    else
      match ev.msg with
      | .agentMessage _ => false
      | .turnComplete last => last.isNone
      | _ => no_message_no_final sub_id rest

/-- Number of matching text events (message or delta) in the list (meant to be
applied to a pre-terminal segment). -/
def countTextEvents (sub_id : String) : List Event → Nat
  | [] => 0
  | ev :: rest =>
    if ev.id ≠ sub_id then countTextEvents sub_id rest
    else
      match ev.msg with
      | .agentMessage _ => countTextEvents sub_id rest + 1
      | .agentMessageDelta _ => countTextEvents sub_id rest + 1
      | _ => countTextEvents sub_id rest

/-- Concatenation, in arrival order, of the `content` fragments of the chat
streaming channel (control frames — the finish chunk, `[DONE]`, errors — carry
no content). -/
def chatStreamText : List ChatChanItem → String
  | [] => ""
  | .chunk (some c) _ _ :: rest => c ++ chatStreamText rest
  | _ :: rest => chatStreamText rest

/-- The finish reason of the first chunk that carries one. -/
def streamFinishReason : List ChatChanItem → Option String
  | [] => none
  | .chunk _ _ (some r) :: _ => some r
  | _ :: rest => streamFinishReason rest

/-- Number of `[DONE]` markers on the chat streaming channel. -/
def chatCountDone : List ChatChanItem → Nat
  | [] => 0
  | .doneMarker :: rest => chatCountDone rest + 1
  | _ :: rest => chatCountDone rest

/-- Number of error-shaped elements on the chat streaming channel. -/
def chatCountErr : List ChatChanItem → Nat
  | [] => 0
  | .errItem _ :: rest => chatCountErr rest + 1
  | _ :: rest => chatCountErr rest

/-- Number of `response.output_text.delta` events on the responses streaming
channel. -/
def countTextDeltas : List RespChanItem → Nat
  | [] => 0
  | .textDelta _ :: rest => countTextDeltas rest + 1
  | _ :: rest => countTextDeltas rest

/-- Number of `[DONE]` markers on the responses streaming channel. -/
def respCountDone : List RespChanItem → Nat
  | [] => 0
  | .doneMarker :: rest => respCountDone rest + 1
  | _ :: rest => respCountDone rest

/-- Number of error-shaped elements on the responses streaming channel. -/
def respCountErr : List RespChanItem → Nat
  | [] => 0
  | .errItem _ :: rest => respCountErr rest + 1
  | _ :: rest => respCountErr rest

/-- The extracted content text of a free-form input item (empty for
non-objects, which the merge skips anyway). -/
def valueText : JsonValue → String
  | .obj fields => valueContentText fields
  | _ => ""

/-- A chat-completions request whose content is whitespace-only in every
field. -/
def blankChatBody : ChatCompletionRequest :=
  { model := "gpt-4o-mini", messages := some [⟨"user", .str "  "⟩], input := none,
    instructions := some " ", stream := false, conversation_id := none }

/-- A responses request whose content is whitespace-only in every field. -/
def blankRespBody : ResponsesRequest :=
  { model := "gpt-4o-mini", input := [.message "user" [.inputText " "]],
    instructions := some "\t", stream := false, conversation_id := none }

/-- A chat-completions request with all-blank `messages` but non-blank
free-form `input`. -/
def fallbackBody : ChatCompletionRequest :=
  { model := "gpt-4o-mini", messages := some [⟨"user", .str " "⟩],
    input := some [.obj [("role", .str "user"), ("content", .str "hello")]],
    instructions := none, stream := false, conversation_id := none }

/-- A minimal valid chat-completions request, used to instantiate theorems at
concrete inputs. -/
def sampleChatBody : ChatCompletionRequest :=
  { model := "gpt-4o-mini", messages := some [⟨"user", .str "hi"⟩], input := none,
    instructions := none, stream := false, conversation_id := none }

/-- A minimal valid responses request, used to instantiate theorems at
concrete inputs. -/
def sampleRespBody : ResponsesRequest :=
  { model := "gpt-4o-mini", input := [.message "user" [.inputText "hi"]],
    instructions := none, stream := false, conversation_id := none }

/-! ## Helper lemmas -/

/-- The aggregate chat loop on a run of deltas followed by `TurnComplete`
carrying a final message: the final message overwrites whatever the deltas
accumulated. -/
theorem runOnceLoop_deltas_then_final (s msg : String) (ds : List String) :
    ∀ acc tcs, runOnceLoop s acc tcs
      (ds.map (fun d => ⟨s, .agentMessageDelta d⟩) ++ [⟨s, .turnComplete (some msg)⟩])
      = some (.ok (msg, tcs)) := by
  induction ds with
  | nil => intro acc tcs; simp [runOnceLoop]
  | cons d ds ih => intro acc tcs; simpa [runOnceLoop] using ih (acc ++ d) tcs

/-- The aggregate chat loop ignores events whose id differs from the turn's
submission id. -/
theorem runOnceLoop_filter (s : String) (evs : List Event) :
    ∀ acc tcs, runOnceLoop s acc tcs evs
      = runOnceLoop s acc tcs (evs.filter fun e => e.id == s) := by
  induction evs with
  | nil => intro acc tcs; rfl
  | cons ev rest ih =>
    intro acc tcs
    by_cases h : ev.id = s
    · cases hm : ev.msg <;> simp [runOnceLoop, List.filter_cons, h, hm, ih]
    · simp [runOnceLoop, List.filter_cons, h, ih]

/-- The chat streaming loop ignores events whose id differs from the turn's
submission id. -/
theorem runStreamLoop_filter (s : String) (evs : List Event) :
    ∀ seen, runStreamLoop s seen evs
      = runStreamLoop s seen (evs.filter fun e => e.id == s) := by
  induction evs with
  | nil => intro seen; rfl
  | cons ev rest ih =>
    intro seen
    by_cases h : ev.id = s
    · cases hm : ev.msg <;> simp [runStreamLoop, List.filter_cons, h, hm, ih]
    · simp [runStreamLoop, List.filter_cons, h, ih]

/-- The aggregate responses loop ignores events whose id differs from the
turn's submission id. -/
theorem runResponsesOnceLoop_filter (s : String) (evs : List Event) :
    ∀ ft seen items, runResponsesOnceLoop s ft seen items evs
      = runResponsesOnceLoop s ft seen items (evs.filter fun e => e.id == s) := by
  induction evs with
  | nil => intro ft seen items; rfl
  | cons ev rest ih =>
    intro ft seen items
    by_cases h : ev.id = s
    · cases hm : ev.msg <;> simp [runResponsesOnceLoop, List.filter_cons, h, hm, ih]
    · simp [runResponsesOnceLoop, List.filter_cons, h, ih]

/-- The responses streaming loop ignores events whose id differs from the
turn's submission id. -/
theorem runResponsesStreamLoop_filter (s rid : String) (conv : Option String) (evs : List Event) :
    ∀ seen, runResponsesStreamLoop s rid conv seen evs
      = runResponsesStreamLoop s rid conv seen (evs.filter fun e => e.id == s) := by
  induction evs with
  | nil => intro seen; rfl
  | cons ev rest ih =>
    intro seen
    by_cases h : ev.id = s
    · cases hm : ev.msg <;>
        simp [runResponsesStreamLoop, List.filter_cons, h, hm, ih]
    · simp [runResponsesStreamLoop, List.filter_cons, h, ih]

/-- A list extended on the right is never empty. -/
theorem isEmpty_append_singleton {α : Type} (l : List α) (x : α) :
    (l ++ [x]).isEmpty = false := by
  cases l <;> rfl

/-- In a successfully completing aggregate chat turn, the collected tool-call
list is empty iff the accumulator was empty and no tool-mapping raw item
occurred before the terminal event. -/
theorem runOnceLoop_tools_isEmpty (s : String) (evs : List Event) :
    ∀ acc tcs t out, runOnceLoop s acc tcs evs = some (.ok (t, out)) →
      out.isEmpty = (tcs.isEmpty && !tool_item_seen s evs) := by
  induction evs with
  | nil => intro acc tcs t out h; simp [runOnceLoop] at h
  | cons ev rest ih =>
    intro acc tcs t out h
    obtain ⟨id, msg⟩ := ev
    by_cases hid : id = s
    · subst hid
      cases msg with
      | agentMessage m =>
          simp only [runOnceLoop, ne_eq, not_true_eq_false, if_false, ite_false] at h
          simp [tool_item_seen] at h ⊢
          exact ih _ _ _ _ h
      | agentMessageDelta d =>
          simp [runOnceLoop, tool_item_seen] at h ⊢
          exact ih _ _ _ _ h
      | rawResponseItem item =>
          cases hmc : map_tool_call item with
          | some tc =>
              simp [runOnceLoop, tool_item_seen, hmc] at h ⊢
              simpa [isEmpty_append_singleton] using ih _ _ _ _ h
          | none =>
              simp [runOnceLoop, tool_item_seen, hmc] at h ⊢
              exact ih _ _ _ _ h
      | turnComplete last =>
          simp [runOnceLoop, tool_item_seen] at h ⊢
          obtain ⟨h1, h2⟩ := h
          simp [h2]
      | error m => simp [runOnceLoop] at h
      | warning m =>
          simp [runOnceLoop, tool_item_seen] at h ⊢
          exact ih _ _ _ _ h
      | turnAborted r => simp [runOnceLoop] at h
      | other =>
          simp [runOnceLoop, tool_item_seen] at h ⊢
          exact ih _ _ _ _ h
    · simp [runOnceLoop, tool_item_seen, hid] at h ⊢
      exact ih _ _ _ _ h

/-- In a successfully completing turn, the streaming finish chunk's reason is
`"tool_calls"` exactly when the `tool_seen` flag was set or a tool-mapping raw
item occurs before the terminal event. -/
theorem streamFinishReason_of_complete (s : String) (evs : List Event) :
    ∀ acc tcs t out seen, runOnceLoop s acc tcs evs = some (.ok (t, out)) →
      streamFinishReason (runStreamLoop s seen evs)
        = some (if seen || tool_item_seen s evs then "tool_calls" else "stop") := by
  induction evs with
  | nil => intro acc tcs t out seen h; simp [runOnceLoop] at h
  | cons ev rest ih =>
    intro acc tcs t out seen h
    obtain ⟨id, msg⟩ := ev
    by_cases hid : id = s
    · subst hid
      cases msg with
      | agentMessage m =>
          simp [runOnceLoop, runStreamLoop, streamFinishReason, tool_item_seen] at h ⊢
          simpa using ih _ _ _ _ seen h
      | agentMessageDelta d =>
          simp [runOnceLoop, runStreamLoop, streamFinishReason, tool_item_seen] at h ⊢
          simpa using ih _ _ _ _ seen h
      | rawResponseItem item =>
          cases hmc : map_tool_call item with
          | some tc =>
              simp [runOnceLoop, runStreamLoop, streamFinishReason, tool_item_seen, hmc] at h ⊢
              simpa using ih _ _ _ _ true h
          | none =>
              simp [runOnceLoop, runStreamLoop, streamFinishReason, tool_item_seen, hmc] at h ⊢
              simpa using ih _ _ _ _ seen h
      | turnComplete last =>
          cases last <;>
            simp [runOnceLoop, runStreamLoop, streamFinishReason, tool_item_seen]
      | error m => simp [runOnceLoop] at h
      | warning m =>
          simp [runOnceLoop, runStreamLoop, streamFinishReason, tool_item_seen] at h ⊢
          simpa using ih _ _ _ _ seen h
      | turnAborted r => simp [runOnceLoop] at h
      | other =>
          simp [runOnceLoop, runStreamLoop, streamFinishReason, tool_item_seen] at h ⊢
          simpa using ih _ _ _ _ seen h
    · simp [runOnceLoop, runStreamLoop, streamFinishReason, tool_item_seen, hid] at h ⊢
      simpa using ih _ _ _ _ seen h

/-! ## Claim theorems -/

/-- **C1** — For every event sequence consisting of text-delta events followed
by a turn-complete event carrying a final message, the aggregate chat
response's content equals the trimmed final message (the final message
overwrites the running text buffer; the deltas do not appear). -/
theorem c1_final_message_overwrites_deltas
    (body : ChatCompletionRequest) (sub_id msg t : String) (ds : List String)
    (hmerged : merged_text_from_request body = some t) :
    handle_once body sub_id
      (ds.map (fun d => ⟨sub_id, .agentMessageDelta d⟩) ++ [⟨sub_id, .turnComplete (some msg)⟩])
      = .ok { model := body.model, content := rustTrim msg, tool_calls := none,
              finish_reason := "stop" } := by
  unfold handle_once
  rw [hmerged, runOnceLoop_deltas_then_final]
  rfl

/-- Witness for C1: deltas `"Hel"`, `"lo"` then turn-complete with final
message `" Bye "` produce content `"Bye"`, not `"Hello"`. -/
theorem c1_witness :
    handle_once
      { model := "gpt-4o-mini", messages := some [⟨"user", .str "hi"⟩], input := none,
        instructions := none, stream := false, conversation_id := none }
      "s"
      (["Hel", "lo"].map (fun d => ⟨"s", .agentMessageDelta d⟩)
        ++ [⟨"s", .turnComplete (some " Bye ")⟩])
      = .ok { model := "gpt-4o-mini", content := "Bye", tool_calls := none,
              finish_reason := "stop" } :=
  c1_final_message_overwrites_deltas
    { model := "gpt-4o-mini", messages := some [⟨"user", .str "hi"⟩], input := none,
      instructions := none, stream := false, conversation_id := none }
    "s" " Bye " "user: hi" ["Hel", "lo"] rfl

/-- **C2** — In a successfully completing turn, the finish reason is
`"tool_calls"` iff at least one function-call or custom-tool-call structured
item was observed during the turn (otherwise it is `"stop"`), and the
streaming finish chunk for the same event sequence carries the same reason as
the aggregate response. -/
theorem c2_finish_reason_consistent
    (body : ChatCompletionRequest) (sub_id : String) (events : List Event)
    (resp : ChatCompletionResponseCore)
    (h : handle_once body sub_id events = .ok resp) :
    (resp.finish_reason = "tool_calls" ↔ tool_item_seen sub_id events = true) ∧
    (resp.finish_reason = "tool_calls" ∨ resp.finish_reason = "stop") ∧
    streamFinishReason (runStreamLoop sub_id false events) = some resp.finish_reason := by
  unfold handle_once at h
  cases hm : merged_text_from_request body with
  | none => rw [hm] at h; exact absurd h (by simp)
  | some mt =>
      rw [hm] at h
      cases hr : runOnceLoop sub_id "" [] events with
      | none => rw [hr] at h; exact absurd h (by simp)
      | some res =>
          rw [hr] at h
          cases res with
          | error e => exact absurd h (by simp)
          | ok pr =>
              obtain ⟨text, tcs⟩ := pr
              simp only [HandlerOutcome.ok.injEq] at h
              have hA := runOnceLoop_tools_isEmpty sub_id events "" [] text tcs hr
              have hB := streamFinishReason_of_complete sub_id events "" [] text tcs false hr
              subst h
              simp only [List.isEmpty_nil, Bool.true_and] at hA
              cases hts : tool_item_seen sub_id events with
              | true => rw [hts] at hA; simp [hA] at hB ⊢; simpa [hts] using hB
              | false => rw [hts] at hA; simp [hA] at hB ⊢; simpa [hts] using hB

/-- Witness for C2: a turn that emits one function-call item and no text
finishes with reason `"tool_calls"` in both modes. -/
theorem c2_witness :
    handle_once
      { model := "gpt-4o-mini", messages := some [⟨"user", .str "hi"⟩], input := none,
        instructions := none, stream := false, conversation_id := none }
      "s" [⟨"s", .rawResponseItem (.functionCall "call1" "lookup" "argstr")⟩,
           ⟨"s", .turnComplete none⟩]
      = .ok { model := "gpt-4o-mini", content := "",
              tool_calls := some [{ id := "call1", kind := "function",
                                    function := { name := "lookup", arguments := "argstr" } }],
              finish_reason := "tool_calls" } ∧
    (("tool_calls" : String) = "tool_calls" ↔
      tool_item_seen "s" [⟨"s", .rawResponseItem (.functionCall "call1" "lookup" "argstr")⟩,
                          ⟨"s", .turnComplete none⟩] = true) :=
  ⟨rfl,
   (c2_finish_reason_consistent
      { model := "gpt-4o-mini", messages := some [⟨"user", .str "hi"⟩], input := none,
        instructions := none, stream := false, conversation_id := none }
      "s" [⟨"s", .rawResponseItem (.functionCall "call1" "lookup" "argstr")⟩,
           ⟨"s", .turnComplete none⟩]
      { model := "gpt-4o-mini", content := "",
        tool_calls := some [{ id := "call1", kind := "function",
                              function := { name := "lookup", arguments := "argstr" } }],
        finish_reason := "tool_calls" }
      rfl).1⟩

/-- **C3 (counterexample)** — Streaming concatenation does NOT always equal
the aggregate text: (i) the aggregate is trimmed while the stream is not;
(ii) a final message on turn-complete is appended to the stream but
overwrites the aggregate buffer; (iii) a text-message event contributes a
trailing newline to the aggregate buffer but not to the stream. -/
theorem c3_counterexample :
    (handle_once sampleChatBody "s" [⟨"s", .agentMessageDelta " a"⟩, ⟨"s", .turnComplete none⟩]
        = .ok { model := "gpt-4o-mini", content := "a", tool_calls := none, finish_reason := "stop" } ∧
      chatStreamText (runStreamLoop "s" false
        [⟨"s", .agentMessageDelta " a"⟩, ⟨"s", .turnComplete none⟩]) = " a" ∧
      (" a" : String) ≠ "a") ∧
    (handle_once sampleChatBody "s" [⟨"s", .agentMessageDelta "a"⟩, ⟨"s", .turnComplete (some "b")⟩]
        = .ok { model := "gpt-4o-mini", content := "b", tool_calls := none, finish_reason := "stop" } ∧
      chatStreamText (runStreamLoop "s" false
        [⟨"s", .agentMessageDelta "a"⟩, ⟨"s", .turnComplete (some "b")⟩]) = "ab" ∧
      rustTrim "ab" ≠ "b") ∧
    (handle_once sampleChatBody "s"
        [⟨"s", .agentMessage "a"⟩, ⟨"s", .agentMessageDelta "b"⟩, ⟨"s", .turnComplete none⟩]
        = .ok { model := "gpt-4o-mini", content := "a\nb", tool_calls := none, finish_reason := "stop" } ∧
      chatStreamText (runStreamLoop "s" false
        [⟨"s", .agentMessage "a"⟩, ⟨"s", .agentMessageDelta "b"⟩, ⟨"s", .turnComplete none⟩]) = "ab" ∧
      rustTrim "ab" ≠ "a\nb") :=
  ⟨⟨rfl, rfl, by decide⟩, ⟨rfl, rfl, by decide⟩, ⟨rfl, rfl, by decide⟩⟩

/-- In a successfully completing turn with no text-message events and no final
message on the terminal event, the aggregate buffer equals the accumulator
followed by the concatenated streaming content fragments. -/
theorem runOnceLoop_text_eq_streamText (s : String) (evs : List Event) :
    ∀ acc tcs t out seen, no_message_no_final s evs = true →
      runOnceLoop s acc tcs evs = some (.ok (t, out)) →
      t = acc ++ chatStreamText (runStreamLoop s seen evs) := by
  induction evs with
  | nil => intro acc tcs t out seen hn h; simp [runOnceLoop] at h
  | cons ev rest ih =>
    intro acc tcs t out seen hn h
    obtain ⟨id, msg⟩ := ev
    by_cases hid : id = s
    · subst hid
      cases msg with
      | agentMessage m => simp [no_message_no_final] at hn
      | agentMessageDelta d =>
          simp [runOnceLoop] at h
          simp [no_message_no_final] at hn
          simp [runStreamLoop, chatStreamText]
          rw [ih _ _ _ _ seen hn h, String.append_assoc]
      | rawResponseItem item =>
          cases hmc : map_tool_call item with
          | some tc =>
              simp [runOnceLoop, hmc] at h
              simp [no_message_no_final] at hn
              simp [runStreamLoop, chatStreamText, hmc]
              exact ih _ _ _ _ true hn h
          | none =>
              simp [runOnceLoop, hmc] at h
              simp [no_message_no_final] at hn
              simp [runStreamLoop, hmc]
              exact ih _ _ _ _ seen hn h
      | turnComplete last =>
          cases last with
          | some msg => simp [no_message_no_final] at hn
          | none =>
              simp [runOnceLoop] at h
              simp [runStreamLoop, chatStreamText]
              exact h.1.symm
      | error m => simp [runOnceLoop] at h
      | warning m =>
          simp [runOnceLoop] at h
          simp [no_message_no_final] at hn
          simp [runStreamLoop]
          exact ih _ _ _ _ seen hn h
      | turnAborted r => simp [runOnceLoop] at h
      | other =>
          simp [runOnceLoop] at h
          simp [no_message_no_final] at hn
          simp [runStreamLoop]
          exact ih _ _ _ _ seen hn h
    · simp [runOnceLoop, hid] at h
      simp [no_message_no_final, hid] at hn
      simp [runStreamLoop, hid]
      exact ih _ _ _ _ seen hn h

/-- **C3 (amended)** — For event sequences with no text-message events whose
terminal turn-complete carries no final message, the TRIMMED concatenation of
the streaming content fragments (in arrival order, ignoring control frames)
equals the aggregate response's content. -/
theorem c3_amended_stream_concat_eq_aggregate
    (body : ChatCompletionRequest) (sub_id : String) (events : List Event)
    (resp : ChatCompletionResponseCore)
    (h : handle_once body sub_id events = .ok resp)
    (hn : no_message_no_final sub_id events = true) :
    rustTrim (chatStreamText (runStreamLoop sub_id false events)) = resp.content := by
  unfold handle_once at h
  cases hm : merged_text_from_request body with
  | none => rw [hm] at h; exact absurd h (by simp)
  | some mt =>
      rw [hm] at h
      cases hr : runOnceLoop sub_id "" [] events with
      | none => rw [hr] at h; exact absurd h (by simp)
      | some res =>
          rw [hr] at h
          cases res with
          | error e => exact absurd h (by simp)
          | ok pr =>
              obtain ⟨text, tcs⟩ := pr
              simp only [HandlerOutcome.ok.injEq] at h
              have ht := runOnceLoop_text_eq_streamText sub_id events "" [] text tcs false hn hr
              rw [String.empty_append] at ht
              subst h
              simp [← ht]

/-- Witness for C3 (amended): deltas `"Hel"`, `"lo "` then turn-complete with
no final message; the trimmed stream concatenation and the aggregate content
are both `"Hello"`. -/
theorem c3_witness :
    rustTrim (chatStreamText (runStreamLoop "s" false
      [⟨"s", .agentMessageDelta "Hel"⟩, ⟨"s", .agentMessageDelta "lo "⟩, ⟨"s", .turnComplete none⟩]))
      = ({ model := "gpt-4o-mini", content := "Hello", tool_calls := none,
           finish_reason := "stop" } : ChatCompletionResponseCore).content :=
  c3_amended_stream_concat_eq_aggregate sampleChatBody "s"
    [⟨"s", .agentMessageDelta "Hel"⟩, ⟨"s", .agentMessageDelta "lo "⟩, ⟨"s", .turnComplete none⟩]
    { model := "gpt-4o-mini", content := "Hello", tool_calls := none, finish_reason := "stop" }
    rfl rfl

/-- **C4** — Events bearing an id different from the active turn's submission
id are never reflected in the turn's output and cause no state change: each of
the four driver loops computes the same result on an event list and on its
restriction to the events bearing the turn's id. -/
theorem c4_foreign_events_ignored
    (s ft rid : String) (acc : String) (tcs : List ToolCall) (tool_seen text_seen rseen : Bool)
    (items : List ResponseItem) (conv : Option String) (evs : List Event) :
    runOnceLoop s acc tcs evs = runOnceLoop s acc tcs (evs.filter fun e => e.id == s) ∧
    runStreamLoop s tool_seen evs = runStreamLoop s tool_seen (evs.filter fun e => e.id == s) ∧
    runResponsesOnceLoop s ft text_seen items evs
      = runResponsesOnceLoop s ft text_seen items (evs.filter fun e => e.id == s) ∧
    runResponsesStreamLoop s rid conv rseen evs
      = runResponsesStreamLoop s rid conv rseen (evs.filter fun e => e.id == s) :=
  ⟨runOnceLoop_filter s evs acc tcs, runStreamLoop_filter s evs tool_seen,
   runResponsesOnceLoop_filter s evs ft text_seen items,
   runResponsesStreamLoop_filter s rid conv evs rseen⟩

/-- A part list headed by `p` joins to `p` followed by a remainder. -/
theorem joinParts_cons (p : String) (l : List String) :
    ∃ r, joinParts (p :: l) = p ++ r := by
  cases l with
  | nil => exact ⟨"", (String.append_empty p).symm⟩
  | cons q rest =>
      exact ⟨"\n" ++ joinParts (q :: rest), by simp [joinParts, String.append_assoc]⟩

/-- **C5 (counterexample)** — In the message-list request shape the
`instructions` field is ignored: a request with non-blank instructions and a
non-blank message normalizes to the merged messages alone, which does not
begin with a `system: `-prefixed line. -/
theorem c5_counterexample :
    merged_text_from_request
      { model := "gpt-4o-mini", messages := some [⟨"user", .str "hi"⟩], input := none,
        instructions := some "be brief", stream := false, conversation_id := none }
      = some "user: hi" ∧
    rustStartsWith "user: hi" "system: " = false ∧
    ¬ rustTrim "be brief" = "" :=
  ⟨rfl, by decide, by decide⟩

/-- **C5 (amended)** — In the free-form input-item shape and in the typed
response-item shape (the shapes whose merge consults `instructions`), a
present non-blank `instructions` value always yields a normalized instruction
that begins with the `system: `-prefixed trimmed instructions; the
message-list shape ignores `instructions` entirely. -/
theorem c5_amended_instructions_prepended
    (instr : String) (h : ¬ rustTrim instr = "")
    (items : List JsonValue) (rItems : List ResponseItem) :
    (∃ r, merge_responses_input_values items (some instr)
        = some ("system: " ++ rustTrim instr ++ r)) ∧
    (∃ r, merge_responses_input rItems (some instr)
        = some ("system: " ++ rustTrim instr ++ r)) := by
  constructor
  · obtain ⟨r, hr⟩ := joinParts_cons ("system: " ++ rustTrim instr) (items.filterMap valuePart)
    refine ⟨r, ?_⟩
    unfold merge_responses_input_values instructionPart
    simp [h, hr, String.append_assoc]
  · obtain ⟨r, hr⟩ := joinParts_cons ("system: " ++ rustTrim instr) (rItems.filterMap respItemPart)
    refine ⟨r, ?_⟩
    unfold merge_responses_input instructionPart
    simp [h, hr, String.append_assoc]

/-- Witness for C5 (amended): instruction `"sys"` with empty item lists yields
`"system: sys"` in both shapes. -/
theorem c5_witness :
    (∃ r, merge_responses_input_values [] (some "sys")
        = some ("system: " ++ rustTrim "sys" ++ r)) ∧
    (∃ r, merge_responses_input [] (some "sys")
        = some ("system: " ++ rustTrim "sys" ++ r)) :=
  c5_amended_instructions_prepended "sys" (by decide) [] []

/-- **C6 (counterexample)** — A successful non-streaming responses-dialect
call echoes the NORMALIZED model name, not the one the caller supplied:
requesting model `"GPT-4O"` yields a response whose model field is
`"gpt-4o"`. -/
theorem c6_counterexample :
    handle_responses_once
      { model := "GPT-4O", input := [.message "user" [.inputText "hi"]],
        instructions := none, stream := false, conversation_id := none }
      "s" "c" [⟨"s", .turnComplete (some "ok")⟩]
      = .ok { model := "gpt-4o", status := "completed",
              output := [.message "assistant" [.outputText "ok"]],
              conversation_id := some "c" } ∧
    map_model "GPT-4O" = "gpt-4o" ∧ ("gpt-4o" : String) ≠ "GPT-4O" :=
  ⟨rfl, rfl, by decide⟩

/-- **C6 (amended)** — The chat-completions aggregate response carries the
model name exactly as supplied by the caller, while the responses-dialect
aggregate response carries the alias-normalized (`map_model`) name. -/
theorem c6_amended_model_field
    (cbody : ChatCompletionRequest) (rbody : ResponsesRequest)
    (sub1 sub2 conv : String) (evs1 evs2 : List Event)
    (r1 : ChatCompletionResponseCore) (r2 : ResponsesResponseCore)
    (h1 : handle_once cbody sub1 evs1 = .ok r1)
    (h2 : handle_responses_once rbody sub2 conv evs2 = .ok r2) :
    r1.model = cbody.model ∧ r2.model = map_model rbody.model := by
  constructor
  · unfold handle_once at h1
    cases hm : merged_text_from_request cbody with
    | none => rw [hm] at h1; exact absurd h1 (by simp)
    | some mt =>
        rw [hm] at h1
        cases hr : runOnceLoop sub1 "" [] evs1 with
        | none => rw [hr] at h1; exact absurd h1 (by simp)
        | some res =>
            cases res with
            | error e => rw [hr] at h1; exact absurd h1 (by simp)
            | ok pr =>
                obtain ⟨text, tcs⟩ := pr
                rw [hr] at h1
                simp only [HandlerOutcome.ok.injEq] at h1
                subst h1; rfl
  · unfold handle_responses_once at h2
    cases hm : merge_responses_input rbody.input rbody.instructions with
    | none => rw [hm] at h2; exact absurd h2 (by simp)
    | some mt =>
        rw [hm] at h2
        cases hr : runResponsesOnceLoop sub2 "" false [] evs2 with
        | none => rw [hr] at h2; exact absurd h2 (by simp)
        | some res =>
            cases res with
            | error e => rw [hr] at h2; exact absurd h2 (by simp)
            | ok pr =>
                obtain ⟨text, seen, items⟩ := pr
                rw [hr] at h2
                simp only [HandlerOutcome.ok.injEq] at h2
                subst h2; rfl

/-- Witness for C6 (amended): one completing turn per dialect; the chat model
field equals the request's model, the responses model field equals its
`map_model` image. -/
theorem c6_witness :
    (({ model := "gpt-4o-mini", content := "Bye", tool_calls := none, finish_reason := "stop" } :
        ChatCompletionResponseCore).model = sampleChatBody.model) ∧
    (({ model := "gpt-4o-mini", status := "completed",
        output := [.message "assistant" [.outputText "ok"]], conversation_id := some "c" } :
        ResponsesResponseCore).model = map_model sampleRespBody.model) :=
  c6_amended_model_field sampleChatBody sampleRespBody "s" "s" "c"
    [⟨"s", .turnComplete (some "Bye")⟩] [⟨"s", .turnComplete (some "ok")⟩]
    { model := "gpt-4o-mini", content := "Bye", tool_calls := none, finish_reason := "stop" }
    { model := "gpt-4o-mini", status := "completed",
      output := [.message "assistant" [.outputText "ok"]], conversation_id := some "c" }
    rfl rfl

/-- A message whose content trims to empty is skipped by the merge. -/
theorem msgPart_none_of_blank (m : ChatMessage)
    (h : rustTrim (contentToText m.content) = "") : msgPart m = none := by
  simp [msgPart, h]

/-- All-blank messages merge to nothing. -/
theorem merge_messages_none_of_blank (msgs : List ChatMessage)
    (h : ∀ m ∈ msgs, rustTrim (contentToText m.content) = "") :
    merge_messages msgs = none := by
  unfold merge_messages
  have hnil : msgs.filterMap msgPart = [] :=
    List.filterMap_eq_nil_iff.mpr fun m hm => msgPart_none_of_blank m (h m hm)
  simp [hnil]

/-- A free-form input item whose content trims to empty is skipped by the
merge. -/
theorem valuePart_none_of_blank (v : JsonValue) (h : rustTrim (valueText v) = "") :
    valuePart v = none := by
  cases v with
  | obj fields =>
      simp only [valueText] at h
      simp [valuePart, h]
  | str s => rfl
  | arr items => rfl
  | nullV => rfl
  | otherJson => rfl

/-- A blank (or absent) instruction contributes no system part. -/
theorem instructionPart_nil_of_blank (instr : Option String)
    (h : ∀ i, instr = some i → rustTrim i = "") : instructionPart instr = [] := by
  cases instr with
  | none => rfl
  | some i => simp [instructionPart, h i rfl]

/-- All-blank free-form input with blank instructions merges to nothing. -/
theorem merge_responses_input_values_none_of_blank (items : List JsonValue)
    (instr : Option String) (hi : ∀ i, instr = some i → rustTrim i = "")
    (h : ∀ v ∈ items, rustTrim (valueText v) = "") :
    merge_responses_input_values items instr = none := by
  unfold merge_responses_input_values
  rw [instructionPart_nil_of_blank instr hi]
  have hnil : items.filterMap valuePart = [] :=
    List.filterMap_eq_nil_iff.mpr fun v hv => valuePart_none_of_blank v (h v hv)
  simp [hnil]

/-- A typed response item whose text trims to empty is skipped by the
merge. -/
theorem respItemPart_none_of_blank (item : ResponseItem)
    (h : rustTrim (respItemText item) = "") : respItemPart item = none := by
  cases item with
  | message role content => simp [respItemPart, respItemText] at h ⊢; simp [h]
  | functionCall a b c => rfl
  | customToolCall a b c => rfl
  | otherItem => rfl

/-- All-blank typed input with blank instructions merges to nothing. -/
theorem merge_responses_input_none_of_blank (items : List ResponseItem)
    (instr : Option String) (hi : ∀ i, instr = some i → rustTrim i = "")
    (h : ∀ item ∈ items, rustTrim (respItemText item) = "") :
    merge_responses_input items instr = none := by
  unfold merge_responses_input
  rw [instructionPart_nil_of_blank instr hi]
  have hnil : items.filterMap respItemPart = [] :=
    List.filterMap_eq_nil_iff.mpr fun it hit => respItemPart_none_of_blank it (h it hit)
  simp [hnil]

/-- **C7** — A request whose content is whitespace-only across every accepted
shape normalizes to no instruction, and every handler (aggregate and
streaming, both dialects) answers 400 `invalid_request_error` regardless of
any session events — no turn is submitted. -/
theorem c7_blank_content_rejected
    (cbody : ChatCompletionRequest) (rbody : ResponsesRequest)
    (sub rid conv : String) (events : List Event)
    (hmsgs : ∀ msgs, cbody.messages = some msgs →
      ∀ m ∈ msgs, rustTrim (contentToText m.content) = "")
    (hcinstr : ∀ i, cbody.instructions = some i → rustTrim i = "")
    (hitems : ∀ items, cbody.input = some items → ∀ v ∈ items, rustTrim (valueText v) = "")
    (hrinstr : ∀ i, rbody.instructions = some i → rustTrim i = "")
    (hritems : ∀ item ∈ rbody.input, rustTrim (respItemText item) = "") :
    merged_text_from_request cbody = none ∧
    merge_responses_input rbody.input rbody.instructions = none ∧
    handle_once cbody sub events = .badRequest "no user content found" "invalid_request_error" ∧
    handle_stream cbody sub events = .badRequest "no user content found" "invalid_request_error" ∧
    handle_responses_once rbody sub conv events
      = .badRequest "no user content found" "invalid_request_error" ∧
    handle_responses_stream rbody sub rid conv events
      = .badRequest "no user content found" "invalid_request_error" := by
  have hmerged : merged_text_from_request cbody = none := by
    unfold merged_text_from_request
    cases hms : cbody.messages with
    | none =>
        cases hin : cbody.input with
        | none => rfl
        | some items =>
            exact merge_responses_input_values_none_of_blank items cbody.instructions hcinstr
              (hitems items hin)
    | some msgs =>
        simp only [merge_messages_none_of_blank msgs (hmsgs msgs hms)]
        cases hin : cbody.input with
        | none => rfl
        | some items =>
            exact merge_responses_input_values_none_of_blank items cbody.instructions hcinstr
              (hitems items hin)
  have hrmerged : merge_responses_input rbody.input rbody.instructions = none :=
    merge_responses_input_none_of_blank rbody.input rbody.instructions hrinstr hritems
  refine ⟨hmerged, hrmerged, ?_, ?_, ?_, ?_⟩ <;>
    simp [handle_once, handle_stream, handle_responses_once, handle_responses_stream,
      hmerged, hrmerged]

/-- Witness for C7: concrete whitespace-only requests are rejected with 400 by
all four handlers. -/
theorem c7_witness :
    merged_text_from_request blankChatBody = none ∧
    merge_responses_input blankRespBody.input blankRespBody.instructions = none ∧
    handle_once blankChatBody "s" [] = .badRequest "no user content found" "invalid_request_error" ∧
    handle_stream blankChatBody "s" [] = .badRequest "no user content found" "invalid_request_error" ∧
    handle_responses_once blankRespBody "s" "c" []
      = .badRequest "no user content found" "invalid_request_error" ∧
    handle_responses_stream blankRespBody "s" "r" "c" []
      = .badRequest "no user content found" "invalid_request_error" :=
  c7_blank_content_rejected blankChatBody blankRespBody "s" "r" "c" []
    (by
      intro msgs hm m hmem
      simp [blankChatBody] at hm
      subst hm
      simp at hmem
      subst hmem
      rfl)
    (by
      intro i hi
      simp [blankChatBody] at hi
      subst hi
      rfl)
    (by
      intro items hin
      simp [blankChatBody] at hin)
    (by
      intro i hi
      simp [blankRespBody] at hi
      subst hi
      rfl)
    (by
      intro item hmem
      simp [blankRespBody] at hmem
      subst hmem
      rfl)

/-- Behaviour of the responses streaming loop on a terminal-free segment
followed by `TurnComplete` with a final message: the segment maps to a chunk
list whose text-delta count equals the segment's text-event count, and the
final message is synthesized as one extra text delta exactly when neither the
`text_seen` flag nor any text event in the segment was seen. -/
theorem runResponsesStreamLoop_complete_final (s rid msg : String) (conv : Option String)
    (pre : List Event) :
    ∀ seen, no_terminal s pre = true →
      ∃ P, runResponsesStreamLoop s rid conv seen (pre ++ [⟨s, .turnComplete (some msg)⟩])
          = P ++ ((if seen = true ∨ countTextEvents s pre ≠ 0 then ([] : List RespChanItem)
                   else [RespChanItem.textDelta msg])
                  ++ [.completedEvent rid conv, .doneMarker]) ∧
        countTextDeltas P = countTextEvents s pre := by
  induction pre with
  | nil =>
      intro seen _
      refine ⟨[], ?_, rfl⟩
      cases seen <;> simp [runResponsesStreamLoop, countTextEvents]
  | cons ev rest ih =>
      intro seen hn
      obtain ⟨id, emsg⟩ := ev
      by_cases hid : id = s
      · cases emsg with
        | agentMessage m =>
            simp only [no_terminal, terminal_kind, hid, ne_eq, not_true_eq_false, if_false,
              ite_false] at hn
            obtain ⟨P, hP, hc⟩ := ih true hn
            refine ⟨.textDelta m :: P, ?_, ?_⟩
            · simp only [List.cons_append, runResponsesStreamLoop, hid]
              simp [hP, countTextEvents]
            · simp [countTextDeltas, hc, countTextEvents, hid]
        | agentMessageDelta d =>
            simp only [no_terminal, terminal_kind, hid, ne_eq, not_true_eq_false, if_false,
              ite_false] at hn
            obtain ⟨P, hP, hc⟩ := ih true hn
            refine ⟨.textDelta d :: P, ?_, ?_⟩
            · simp only [List.cons_append, runResponsesStreamLoop, hid]
              simp [hP, countTextEvents]
            · simp [countTextDeltas, hc, countTextEvents, hid]
        | rawResponseItem item =>
            simp only [no_terminal, terminal_kind, hid, ne_eq, not_true_eq_false, if_false,
              ite_false] at hn
            obtain ⟨P, hP, hc⟩ := ih seen hn
            refine ⟨.itemDone item :: P, ?_, ?_⟩
            · simp only [List.cons_append, runResponsesStreamLoop, hid]
              simp [hP, countTextEvents]
            · simp [countTextDeltas, hc, countTextEvents, hid]
        | turnComplete last => simp [no_terminal, terminal_kind, hid] at hn
        | error m => simp [no_terminal, terminal_kind, hid] at hn
        | warning m =>
            simp only [no_terminal, terminal_kind, hid, ne_eq, not_true_eq_false, if_false,
              ite_false] at hn
            obtain ⟨P, hP, hc⟩ := ih seen hn
            refine ⟨P, ?_, ?_⟩
            · simp only [List.cons_append, runResponsesStreamLoop, hid]
              simp [hP, countTextEvents, hid]
            · simp [hc, countTextEvents, hid]
        | turnAborted r => simp [no_terminal, terminal_kind, hid] at hn
        | other =>
            simp only [no_terminal, terminal_kind, hid, ne_eq, not_true_eq_false, if_false,
              ite_false] at hn
            obtain ⟨P, hP, hc⟩ := ih seen hn
            refine ⟨P, ?_, ?_⟩
            · simp only [List.cons_append, runResponsesStreamLoop, hid]
              simp [hP, countTextEvents, hid]
            · simp [hc, countTextEvents, hid]
      · simp only [no_terminal, terminal_kind, hid, ne_eq, not_false_eq_true, if_true,
          ite_true] at hn
        obtain ⟨P, hP, hc⟩ := ih seen hn
        refine ⟨P, ?_, ?_⟩
        · simp only [List.cons_append, runResponsesStreamLoop, hid]
          simp [hid, hP, countTextEvents]
        · simp [hc, countTextEvents, hid]

/-- **C8** — In responses-dialect streaming, for a turn whose terminal
`TurnComplete` carries a final message: if no text delta or message was
streamed during the turn, exactly one text delta synthesized from the final
message is emitted, immediately before `response.completed`; if any text was
streamed, no delta is synthesized from the final message (the emitted
text-delta count equals the number of streamed text events — text is never
duplicated). -/
theorem c8_final_message_synthesized_once
    (sub_id rid msg : String) (conv : Option String) (pre : List Event)
    (hn : no_terminal sub_id pre = true) :
    (countTextEvents sub_id pre = 0 →
      ∃ P, runResponsesStreamLoop sub_id rid conv false
            (pre ++ [⟨sub_id, .turnComplete (some msg)⟩])
          = P ++ [.textDelta msg, .completedEvent rid conv, .doneMarker] ∧
        countTextDeltas P = 0) ∧
    (countTextEvents sub_id pre ≠ 0 →
      ∃ P, runResponsesStreamLoop sub_id rid conv false
            (pre ++ [⟨sub_id, .turnComplete (some msg)⟩])
          = P ++ [.completedEvent rid conv, .doneMarker] ∧
        countTextDeltas P = countTextEvents sub_id pre) := by
  obtain ⟨P, hP, hc⟩ := runResponsesStreamLoop_complete_final sub_id rid msg conv pre false hn
  constructor
  · intro h0
    refine ⟨P, ?_, by rw [hc, h0]⟩
    rw [hP]
    simp [h0]
  · intro hne
    refine ⟨P, ?_, hc⟩
    rw [hP]
    simp [hne]

/-- Witness for C8: with no streamed text, a final message `"hi"` is
synthesized as exactly one text delta before `response.completed`. -/
theorem c8_witness :
    ∃ P, runResponsesStreamLoop "s" "r" (some "c") false
          ([] ++ [⟨"s", .turnComplete (some "hi")⟩])
        = P ++ [.textDelta "hi", .completedEvent "r" (some "c"), .doneMarker] ∧
      countTextDeltas P = 0 :=
  (c8_final_message_synthesized_once "s" "r" "hi" (some "c") [] rfl).1 rfl

/-- Shape of the chat streaming channel: the output is a run of chunks (no
`[DONE]`, no error elements) followed by exactly one `[DONE]` when the turn
completes, exactly one error element when it fails, and nothing else when no
terminal event occurs. -/
theorem runStreamLoop_shape (s : String) (evs : List Event) :
    ∀ seen, ∃ P, chatCountDone P = 0 ∧ chatCountErr P = 0 ∧
      ((terminal_kind s evs = some .complete ∧
          runStreamLoop s seen evs = P ++ [.doneMarker]) ∨
       (∃ e, terminal_kind s evs = some .failed ∧
          runStreamLoop s seen evs = P ++ [.errItem e]) ∨
       (terminal_kind s evs = none ∧ runStreamLoop s seen evs = P)) := by
  induction evs with
  | nil => exact fun seen => ⟨[], rfl, rfl, .inr (.inr ⟨rfl, rfl⟩)⟩
  | cons ev rest ih =>
      intro seen
      obtain ⟨id, emsg⟩ := ev
      by_cases hid : id = s
      · subst hid
        cases emsg with
        | agentMessage m =>
            obtain ⟨P, hd, he, hcase⟩ := ih seen
            refine ⟨.chunk (some m) none none :: P, by simpa [chatCountDone] using hd,
              by simpa [chatCountErr] using he, ?_⟩
            rcases hcase with ⟨ht, hout⟩ | ⟨e, ht, hout⟩ | ⟨ht, hout⟩
            · exact .inl ⟨by simpa [terminal_kind] using ht, by simp [runStreamLoop, hout]⟩
            · exact .inr (.inl ⟨e, by simpa [terminal_kind] using ht,
                by simp [runStreamLoop, hout]⟩)
            · exact .inr (.inr ⟨by simpa [terminal_kind] using ht,
                by simp [runStreamLoop, hout]⟩)
        | agentMessageDelta d =>
            obtain ⟨P, hd, he, hcase⟩ := ih seen
            refine ⟨.chunk (some d) none none :: P, by simpa [chatCountDone] using hd,
              by simpa [chatCountErr] using he, ?_⟩
            rcases hcase with ⟨ht, hout⟩ | ⟨e, ht, hout⟩ | ⟨ht, hout⟩
            · exact .inl ⟨by simpa [terminal_kind] using ht, by simp [runStreamLoop, hout]⟩
            · exact .inr (.inl ⟨e, by simpa [terminal_kind] using ht,
                by simp [runStreamLoop, hout]⟩)
            · exact .inr (.inr ⟨by simpa [terminal_kind] using ht,
                by simp [runStreamLoop, hout]⟩)
        | rawResponseItem item =>
            cases hmc : map_tool_call item with
            | some tc =>
                obtain ⟨P, hd, he, hcase⟩ := ih true
                refine ⟨.chunk none (some tc) none :: P, by simpa [chatCountDone] using hd,
                  by simpa [chatCountErr] using he, ?_⟩
                rcases hcase with ⟨ht, hout⟩ | ⟨e, ht, hout⟩ | ⟨ht, hout⟩
                · exact .inl ⟨by simpa [terminal_kind] using ht,
                    by simp [runStreamLoop, hmc, hout]⟩
                · exact .inr (.inl ⟨e, by simpa [terminal_kind] using ht,
                    by simp [runStreamLoop, hmc, hout]⟩)
                · exact .inr (.inr ⟨by simpa [terminal_kind] using ht,
                    by simp [runStreamLoop, hmc, hout]⟩)
            | none =>
                obtain ⟨P, hd, he, hcase⟩ := ih seen
                refine ⟨P, hd, he, ?_⟩
                rcases hcase with ⟨ht, hout⟩ | ⟨e, ht, hout⟩ | ⟨ht, hout⟩
                · exact .inl ⟨by simpa [terminal_kind] using ht,
                    by simp [runStreamLoop, hmc, hout]⟩
                · exact .inr (.inl ⟨e, by simpa [terminal_kind] using ht,
                    by simp [runStreamLoop, hmc, hout]⟩)
                · exact .inr (.inr ⟨by simpa [terminal_kind] using ht,
                    by simp [runStreamLoop, hmc, hout]⟩)
        | turnComplete last =>
            cases last with
            | none =>
                exact ⟨[.chunk none none (some (if seen then "tool_calls" else "stop"))],
                  rfl, rfl, .inl ⟨by simp [terminal_kind], by simp [runStreamLoop]⟩⟩
            | some msg =>
                exact ⟨[.chunk (some msg) none none,
                        .chunk none none (some (if seen then "tool_calls" else "stop"))],
                  rfl, rfl, .inl ⟨by simp [terminal_kind], by simp [runStreamLoop]⟩⟩
        | error m =>
            exact ⟨[], rfl, rfl, .inr (.inl ⟨"Codex error: " ++ m,
              by simp [terminal_kind], by simp [runStreamLoop]⟩)⟩
        | warning m =>
            obtain ⟨P, hd, he, hcase⟩ := ih seen
            refine ⟨P, hd, he, ?_⟩
            rcases hcase with ⟨ht, hout⟩ | ⟨e, ht, hout⟩ | ⟨ht, hout⟩
            · exact .inl ⟨by simpa [terminal_kind] using ht, by simp [runStreamLoop, hout]⟩
            · exact .inr (.inl ⟨e, by simpa [terminal_kind] using ht,
                by simp [runStreamLoop, hout]⟩)
            · exact .inr (.inr ⟨by simpa [terminal_kind] using ht,
                by simp [runStreamLoop, hout]⟩)
        | turnAborted r =>
            exact ⟨[], rfl, rfl, .inr (.inl ⟨"Turn aborted: " ++ r,
              by simp [terminal_kind], by simp [runStreamLoop]⟩)⟩
        | other =>
            obtain ⟨P, hd, he, hcase⟩ := ih seen
            refine ⟨P, hd, he, ?_⟩
            rcases hcase with ⟨ht, hout⟩ | ⟨e, ht, hout⟩ | ⟨ht, hout⟩
            · exact .inl ⟨by simpa [terminal_kind] using ht, by simp [runStreamLoop, hout]⟩
            · exact .inr (.inl ⟨e, by simpa [terminal_kind] using ht,
                by simp [runStreamLoop, hout]⟩)
            · exact .inr (.inr ⟨by simpa [terminal_kind] using ht,
                by simp [runStreamLoop, hout]⟩)
      · obtain ⟨P, hd, he, hcase⟩ := ih seen
        refine ⟨P, hd, he, ?_⟩
        rcases hcase with ⟨ht, hout⟩ | ⟨e, ht, hout⟩ | ⟨ht, hout⟩
        · exact .inl ⟨by simpa [terminal_kind, hid] using ht,
            by simpa [runStreamLoop, hid] using hout⟩
        · exact .inr (.inl ⟨e, by simpa [terminal_kind, hid] using ht,
            by simpa [runStreamLoop, hid] using hout⟩)
        · exact .inr (.inr ⟨by simpa [terminal_kind, hid] using ht,
            by simpa [runStreamLoop, hid] using hout⟩)

/-- Shape of the responses streaming channel: analogous to
`runStreamLoop_shape`. -/
theorem runResponsesStreamLoop_shape (s rid : String) (conv : Option String)
    (evs : List Event) :
    ∀ seen, ∃ P, respCountDone P = 0 ∧ respCountErr P = 0 ∧
      ((terminal_kind s evs = some .complete ∧
          runResponsesStreamLoop s rid conv seen evs = P ++ [.doneMarker]) ∨
       (∃ e, terminal_kind s evs = some .failed ∧
          runResponsesStreamLoop s rid conv seen evs = P ++ [.errItem e]) ∨
       (terminal_kind s evs = none ∧ runResponsesStreamLoop s rid conv seen evs = P)) := by
  induction evs with
  | nil => exact fun seen => ⟨[], rfl, rfl, .inr (.inr ⟨rfl, rfl⟩)⟩
  | cons ev rest ih =>
      intro seen
      obtain ⟨id, emsg⟩ := ev
      by_cases hid : id = s
      · subst hid
        cases emsg with
        | agentMessage m =>
            obtain ⟨P, hd, he, hcase⟩ := ih true
            refine ⟨.textDelta m :: P, by simpa [respCountDone] using hd,
              by simpa [respCountErr] using he, ?_⟩
            rcases hcase with ⟨ht, hout⟩ | ⟨e, ht, hout⟩ | ⟨ht, hout⟩
            · exact .inl ⟨by simpa [terminal_kind] using ht,
                by simp [runResponsesStreamLoop, hout]⟩
            · exact .inr (.inl ⟨e, by simpa [terminal_kind] using ht,
                by simp [runResponsesStreamLoop, hout]⟩)
            · exact .inr (.inr ⟨by simpa [terminal_kind] using ht,
                by simp [runResponsesStreamLoop, hout]⟩)
        | agentMessageDelta d =>
            obtain ⟨P, hd, he, hcase⟩ := ih true
            refine ⟨.textDelta d :: P, by simpa [respCountDone] using hd,
              by simpa [respCountErr] using he, ?_⟩
            rcases hcase with ⟨ht, hout⟩ | ⟨e, ht, hout⟩ | ⟨ht, hout⟩
            · exact .inl ⟨by simpa [terminal_kind] using ht,
                by simp [runResponsesStreamLoop, hout]⟩
            · exact .inr (.inl ⟨e, by simpa [terminal_kind] using ht,
                by simp [runResponsesStreamLoop, hout]⟩)
            · exact .inr (.inr ⟨by simpa [terminal_kind] using ht,
                by simp [runResponsesStreamLoop, hout]⟩)
        | rawResponseItem item =>
            obtain ⟨P, hd, he, hcase⟩ := ih seen
            refine ⟨.itemDone item :: P, by simpa [respCountDone] using hd,
              by simpa [respCountErr] using he, ?_⟩
            rcases hcase with ⟨ht, hout⟩ | ⟨e, ht, hout⟩ | ⟨ht, hout⟩
            · exact .inl ⟨by simpa [terminal_kind] using ht,
                by simp [runResponsesStreamLoop, hout]⟩
            · exact .inr (.inl ⟨e, by simpa [terminal_kind] using ht,
                by simp [runResponsesStreamLoop, hout]⟩)
            · exact .inr (.inr ⟨by simpa [terminal_kind] using ht,
                by simp [runResponsesStreamLoop, hout]⟩)
        | turnComplete last =>
            cases last with
            | none =>
                exact ⟨[.completedEvent rid conv], rfl, rfl,
                  .inl ⟨by simp [terminal_kind], by simp [runResponsesStreamLoop]⟩⟩
            | some msg =>
                cases hseen : seen with
                | true =>
                    exact ⟨[.completedEvent rid conv], rfl, rfl,
                      .inl ⟨by simp [terminal_kind], by simp [runResponsesStreamLoop]⟩⟩
                | false =>
                    exact ⟨[.textDelta msg, .completedEvent rid conv], rfl, rfl,
                      .inl ⟨by simp [terminal_kind], by simp [runResponsesStreamLoop]⟩⟩
        | error m =>
            exact ⟨[], rfl, rfl, .inr (.inl ⟨"Codex error: " ++ m,
              by simp [terminal_kind], by simp [runResponsesStreamLoop]⟩)⟩
        | warning m =>
            obtain ⟨P, hd, he, hcase⟩ := ih seen
            refine ⟨P, hd, he, ?_⟩
            rcases hcase with ⟨ht, hout⟩ | ⟨e, ht, hout⟩ | ⟨ht, hout⟩
            · exact .inl ⟨by simpa [terminal_kind] using ht,
                by simp [runResponsesStreamLoop, hout]⟩
            · exact .inr (.inl ⟨e, by simpa [terminal_kind] using ht,
                by simp [runResponsesStreamLoop, hout]⟩)
            · exact .inr (.inr ⟨by simpa [terminal_kind] using ht,
                by simp [runResponsesStreamLoop, hout]⟩)
        | turnAborted r =>
            exact ⟨[], rfl, rfl, .inr (.inl ⟨"Turn aborted: " ++ r,
              by simp [terminal_kind], by simp [runResponsesStreamLoop]⟩)⟩
        | other =>
            obtain ⟨P, hd, he, hcase⟩ := ih seen
            refine ⟨P, hd, he, ?_⟩
            rcases hcase with ⟨ht, hout⟩ | ⟨e, ht, hout⟩ | ⟨ht, hout⟩
            · exact .inl ⟨by simpa [terminal_kind] using ht,
                by simp [runResponsesStreamLoop, hout]⟩
            · exact .inr (.inl ⟨e, by simpa [terminal_kind] using ht,
                by simp [runResponsesStreamLoop, hout]⟩)
            · exact .inr (.inr ⟨by simpa [terminal_kind] using ht,
                by simp [runResponsesStreamLoop, hout]⟩)
      · obtain ⟨P, hd, he, hcase⟩ := ih seen
        refine ⟨P, hd, he, ?_⟩
        rcases hcase with ⟨ht, hout⟩ | ⟨e, ht, hout⟩ | ⟨ht, hout⟩
        · exact .inl ⟨by simpa [terminal_kind, hid] using ht,
            by simpa [runResponsesStreamLoop, hid] using hout⟩
        · exact .inr (.inl ⟨e, by simpa [terminal_kind, hid] using ht,
            by simpa [runResponsesStreamLoop, hid] using hout⟩)
        · exact .inr (.inr ⟨by simpa [terminal_kind, hid] using ht,
            by simpa [runResponsesStreamLoop, hid] using hout⟩)

/-- **C9 (counterexample)** — A streamed session that ends in an error event
terminates with an error element and NO `[DONE]` marker: the claim that every
streamed session (including error-terminated ones) ends with exactly one
`[DONE]` fails. -/
theorem c9_counterexample :
    runStreamLoop "s" false [⟨"s", .error "boom"⟩] = [.errItem "Codex error: boom"] ∧
    chatCountDone [ChatChanItem.errItem "Codex error: boom"] = 0 ∧
    runResponsesStreamLoop "s" "r" (some "c") false [⟨"s", .turnAborted "interrupted"⟩]
      = [.errItem "Turn aborted: interrupted"] ∧
    respCountDone [RespChanItem.errItem "Turn aborted: interrupted"] = 0 :=
  ⟨rfl, rfl, rfl, rfl⟩

/-- **C9 (amended)** — In both streaming dialects: a session whose turn ends
with turn-complete emits exactly one `[DONE]` marker, as the final element; a
session ending in an error or turn-aborted event emits a single error element
as its final element and no `[DONE]`; a session with no terminal event emits
no `[DONE]`. Nothing is ever emitted after the `[DONE]` marker or the error
element. -/
theorem c9_amended_done_marker
    (s rid : String) (conv : Option String) (seen tseen : Bool) (evs : List Event) :
    (terminal_kind s evs = some .complete →
      (∃ P, runStreamLoop s seen evs = P ++ [.doneMarker] ∧ chatCountDone P = 0) ∧
      (∃ P, runResponsesStreamLoop s rid conv tseen evs = P ++ [.doneMarker] ∧
        respCountDone P = 0)) ∧
    (terminal_kind s evs = some .failed →
      (∃ P e, runStreamLoop s seen evs = P ++ [.errItem e] ∧
        chatCountDone P = 0 ∧ chatCountErr P = 0) ∧
      (∃ P e, runResponsesStreamLoop s rid conv tseen evs = P ++ [.errItem e] ∧
        respCountDone P = 0 ∧ respCountErr P = 0)) ∧
    (terminal_kind s evs = none →
      chatCountDone (runStreamLoop s seen evs) = 0 ∧
      respCountDone (runResponsesStreamLoop s rid conv tseen evs) = 0) := by
  obtain ⟨P1, hd1, he1, hc1⟩ := runStreamLoop_shape s evs seen
  obtain ⟨P2, hd2, he2, hc2⟩ := runResponsesStreamLoop_shape s rid conv evs tseen
  refine ⟨?_, ?_, ?_⟩ <;> intro h
  · constructor
    · rcases hc1 with ⟨ht, hout⟩ | ⟨e, ht, hout⟩ | ⟨ht, hout⟩
      · exact ⟨P1, hout, hd1⟩
      · rw [h] at ht; simp at ht
      · rw [h] at ht; simp at ht
    · rcases hc2 with ⟨ht, hout⟩ | ⟨e, ht, hout⟩ | ⟨ht, hout⟩
      · exact ⟨P2, hout, hd2⟩
      · rw [h] at ht; simp at ht
      · rw [h] at ht; simp at ht
  · constructor
    · rcases hc1 with ⟨ht, hout⟩ | ⟨e, ht, hout⟩ | ⟨ht, hout⟩
      · rw [h] at ht; simp at ht
      · exact ⟨P1, e, hout, hd1, he1⟩
      · rw [h] at ht; simp at ht
    · rcases hc2 with ⟨ht, hout⟩ | ⟨e, ht, hout⟩ | ⟨ht, hout⟩
      · rw [h] at ht; simp at ht
      · exact ⟨P2, e, hout, hd2, he2⟩
      · rw [h] at ht; simp at ht
  · constructor
    · rcases hc1 with ⟨ht, hout⟩ | ⟨e, ht, hout⟩ | ⟨ht, hout⟩
      · rw [h] at ht; simp at ht
      · rw [h] at ht; simp at ht
      · rw [hout]; exact hd1
    · rcases hc2 with ⟨ht, hout⟩ | ⟨e, ht, hout⟩ | ⟨ht, hout⟩
      · rw [h] at ht; simp at ht
      · rw [h] at ht; simp at ht
      · rw [hout]; exact hd2

/-- Witness for C9 (amended): a completing turn yields exactly one trailing
`[DONE]` on both dialects. -/
theorem c9_witness :
    (∃ P, runStreamLoop "s" false [⟨"s", .turnComplete none⟩] = P ++ [.doneMarker] ∧
      chatCountDone P = 0) ∧
    (∃ P, runResponsesStreamLoop "s" "r" (some "c") false [⟨"s", .turnComplete none⟩]
        = P ++ [.doneMarker] ∧ respCountDone P = 0) :=
  (c9_amended_done_marker "s" "r" (some "c") false false [⟨"s", .turnComplete none⟩]).1 rfl

/-- **C10** — The chat-completions normalizer tries `messages` first; it falls
back to merging the free-form `input` list together with `instructions` only
when `messages` is absent or merges to nothing; and it yields `None` (hence
400) exactly when both shapes yield nothing. -/
theorem c10_messages_first_input_fallback (body : ChatCompletionRequest) :
    (∀ msgs t, body.messages = some msgs → merge_messages msgs = some t →
      merged_text_from_request body = some t) ∧
    (∀ items, body.input = some items →
      (body.messages = none ∨ ∃ msgs, body.messages = some msgs ∧ merge_messages msgs = none) →
      merged_text_from_request body = merge_responses_input_values items body.instructions) ∧
    (merged_text_from_request body = none ↔
      ((body.messages = none ∨ ∃ msgs, body.messages = some msgs ∧ merge_messages msgs = none) ∧
       (body.input = none ∨ ∃ items, body.input = some items ∧
          merge_responses_input_values items body.instructions = none))) := by
  refine ⟨?_, ?_, ?_⟩
  · intro msgs t hm ht
    unfold merged_text_from_request
    simp [hm, ht]
  · intro items hi hcase
    unfold merged_text_from_request
    rcases hcase with hnone | ⟨msgs, hm, hmm⟩
    · simp [hnone, hi]
    · simp [hm, hmm, hi]
  · unfold merged_text_from_request
    cases hms : body.messages with
    | none =>
        cases hin : body.input with
        | none => simp
        | some items => simp
    | some msgs =>
        cases hmm : merge_messages msgs with
        | some t => simp [hmm]
        | none =>
            cases hin : body.input with
            | none => simp [hmm]
            | some items => simp [hmm]

/-- Witness for C10: a request with an all-blank message list but a non-blank
free-form input item succeeds through the fallback. -/
theorem c10_witness :
    merged_text_from_request fallbackBody
      = merge_responses_input_values [.obj [("role", .str "user"), ("content", .str "hello")]]
          fallbackBody.instructions ∧
    merge_responses_input_values [.obj [("role", .str "user"), ("content", .str "hello")]]
        fallbackBody.instructions = some "user: hello" :=
  ⟨(c10_messages_first_input_fallback fallbackBody).2.1
      [.obj [("role", .str "user"), ("content", .str "hello")]] rfl
      (Or.inr ⟨[⟨"user", .str " "⟩], rfl, rfl⟩),
   rfl⟩

end CodexProxy
